import Mathlib

/-!
Verification development for `multimerger.py`, a script that searches GitHub
pull requests assigned to the current user, compares their diffs against an
exemplar PR's diff, and interactively approves and merges the matching ones.

Python strings are embedded as `List Char` (`PyStr`).  Network calls are
embedded as oracle functions returning `Except Err _`; Python exceptions are
embedded as `Except.error`.  Interactive `input()` is embedded as an infinite
stream `Nat -> PyStr` of answers, indexed by the order of the prompts.
Terminal printing is pure observation and is not modelled, except that the
listing loop's tuple unpacking of `repository_url` (which can raise) is kept.
-/

/-- Python `str` as a list of characters. -/
abbrev PyStr := List Char

/-- Convert a Lean string literal to the `List Char` embedding. -/
def toL (s : String) : PyStr := s.toList

/-- Exceptions raised by the script: `ValueError(msg)` and
`requests.exceptions.RequestException` (any transport/HTTP failure). -/
inductive Err where
  | valueError (msg : String)
  | transport
deriving DecidableEq, Repr

/-- The message of the `ValueError` raised on a malformed PR URL
(`"Invalid GitHub PR URL format"`, lines 67/87/106 of the source). -/
def invalidMsg : String := "Invalid GitHub PR URL format"

/-- Python `s.split(c)` for a one-character separator: splits on every
occurrence of `c`, keeping empty pieces (`"".split(c) == ['']`). -/
def splitOnChar (c : Char) : List Char → List (List Char)
  | [] => [[]]
  | a :: rest =>
    if a = c then [] :: splitOnChar c rest
    else
      match splitOnChar c rest with
      | [] => [[a]]
      | h :: t => (a :: h) :: t

/-- Python `s.rstrip(c)` for a one-character strip set: removes every
trailing occurrence of `c`. -/
def rstripChar (c : Char) (l : List Char) : List Char :=
  ((l.reverse.dropWhile (fun a => a = c)).reverse)

/-- Python `'\n'.join(xs)`: concatenation with a one-character separator. -/
def joinWith (c : Char) : List (List Char) → List Char
  | [] => []
  | [x] => x
  | x :: y :: rest => x ++ c :: joinWith c (y :: rest)

/-- Python substring test `pat in s`. -/
def listContains (s pat : List Char) : Bool :=
  match s with
  | [] => pat.isEmpty
  | _ :: rest => pat.isPrefixOf s || listContains rest pat

/-- Python whitespace characters stripped by `str.strip()` (ASCII part). -/
def pyIsSpace (c : Char) : Bool :=
  c = ' ' || c = '\t' || c = '\n' || c = '\r' || c = '\x0b' || c = '\x0c'

/-- Python `s.strip()`: remove leading and trailing whitespace. -/
def pyStrip (l : PyStr) : PyStr :=
  ((l.dropWhile pyIsSpace).reverse.dropWhile pyIsSpace).reverse

/-- Python `s.lower()` (ASCII letters). -/
def pyLower (l : PyStr) : PyStr := l.map Char.toLower

/-- Python `input(...).strip().lower()` applied to a raw answer string. -/
def pyStripLower (l : PyStr) : PyStr := pyLower (pyStrip l)

/-- An item of the GitHub issue-search response: the fields the script
reads (`title`, `html_url`, `repository_url`, `number`). -/
structure PRItem where
  title : PyStr
  html_url : PyStr
  repository_url : PyStr
  number : Nat
deriving DecidableEq, Repr

/-- PR-URL decomposition exactly as inlined in `get_pr_diff` (lines 65-71):
`parts = pr_url.rstrip('/').split('/')`; reject if fewer than 7 parts, or
`'github.com'` does not occur in the URL, or `'pull'` is not among the
parts; otherwise return `(parts[-4], parts[-3], parts[-1])`. -/
def decomposeUrl_getPrDiff (pr_url : PyStr) : Option (PyStr × PyStr × PyStr) :=
  let parts := splitOnChar '/' (rstripChar '/' pr_url)
  if parts.length < 7 ∨ listContains pr_url (toL "github.com") = false ∨
      (toL "pull") ∉ parts then
    none
  else
    some (parts.getD (parts.length - 4) [],
          parts.getD (parts.length - 3) [],
          parts.getD (parts.length - 1) [])

/-- PR-URL decomposition exactly as inlined in `approve_pr` (lines 85-91);
the source duplicates the same lines verbatim. -/
def decomposeUrl_approvePr (pr_url : PyStr) : Option (PyStr × PyStr × PyStr) :=
  let parts := splitOnChar '/' (rstripChar '/' pr_url)
  if parts.length < 7 ∨ listContains pr_url (toL "github.com") = false ∨
      (toL "pull") ∉ parts then
    none
  else
    some (parts.getD (parts.length - 4) [],
          parts.getD (parts.length - 3) [],
          parts.getD (parts.length - 1) [])

/-- PR-URL decomposition exactly as inlined in `merge_pr` (lines 104-110);
the source duplicates the same lines verbatim. -/
def decomposeUrl_mergePr (pr_url : PyStr) : Option (PyStr × PyStr × PyStr) :=
  let parts := splitOnChar '/' (rstripChar '/' pr_url)
  if parts.length < 7 ∨ listContains pr_url (toL "github.com") = false ∨
      (toL "pull") ∉ parts then
    none
  else
    some (parts.getD (parts.length - 4) [],
          parts.getD (parts.length - 3) [],
          parts.getD (parts.length - 1) [])

/-- `GitHubAPIClient.get_pr_diff` (lines 62-81): decompose the URL, raising
`ValueError("Invalid GitHub PR URL format")` on failure before any network
call; otherwise perform the GET request, embedded as the oracle
`fetchO owner repo number`, which returns the raw diff text or raises. -/
def get_pr_diff (fetchO : PyStr → PyStr → PyStr → Except Err PyStr)
    (pr_url : PyStr) : Except Err PyStr :=
  match decomposeUrl_getPrDiff pr_url with
  | none => .error (.valueError invalidMsg)
  | some (owner, repo, n) => fetchO owner repo n

/-- `GitHubAPIClient.approve_pr` (lines 83-100): decompose the URL, raising
on failure before any network call; otherwise POST the fixed approval
review, embedded as the oracle `approveO owner repo number`. -/
def approve_pr (approveO : PyStr → PyStr → PyStr → Except Err Unit)
    (pr_url : PyStr) : Except Err Unit :=
  match decomposeUrl_approvePr pr_url with
  | none => .error (.valueError invalidMsg)
  | some (owner, repo, n) => approveO owner repo n

/-- `GitHubAPIClient.merge_pr` (lines 102-118): decompose the URL, raising
on failure before any network call; otherwise PUT the merge request with
the given method, embedded as the oracle `mergeO owner repo number method`.
The source's default argument is `merge_method='squash'`; `main` calls it
with the default, which is passed explicitly here. -/
def merge_pr (mergeO : PyStr → PyStr → PyStr → PyStr → Except Err Unit)
    (pr_url : PyStr) (merge_method : PyStr) : Except Err Unit :=
  match decomposeUrl_mergePr pr_url with
  | none => .error (.valueError invalidMsg)
  | some (owner, repo, n) => mergeO owner repo n merge_method

/-- `GitHubAPIClient.search_assigned_prs` (lines 54-60): the search request
is embedded as its response `resp` (the `items` list, or a raised error);
the result is locally filtered to titles starting with `title_pre`
(`pr['title'].startswith(title_prefix)`). -/
def search_assigned_prs (resp : Except Err (List PRItem)) (title_pre : PyStr) :
    Except Err (List PRItem) :=
  match resp with
  | .error e => .error e
  | .ok items => .ok (items.filter (fun q => title_pre.isPrefixOf q.title))

/-- `PRMatcher.find_matching_prs` (lines 125-133): for each candidate in
order, fetch its diff via `get_pr_diff` on its `html_url` (an exception
propagates, discarding any partial result), and keep the candidate iff
`pr_diff.strip() == example_diff.strip()`. -/
def find_matching_prs (fetchO : PyStr → PyStr → PyStr → Except Err PyStr)
    (assigned_prs : List PRItem) (example_diff : PyStr) :
    Except Err (List PRItem) :=
  match assigned_prs with
  | [] => .ok []
  | pr :: rest =>
    match get_pr_diff fetchO pr.html_url with
    | .error e => .error e
    | .ok pr_diff =>
      match find_matching_prs fetchO rest example_diff with
      | .error e => .error e
      | .ok tail =>
        .ok (if pyStrip pr_diff = pyStrip example_diff then pr :: tail else tail)

/-- One line of `colorize_diff`'s per-line if/elif chain (lines 15-30):
bold for `+++`/`---` file headers, cyan for `@@` hunk headers, green for
`+` additions, red for `-` removals, unchanged otherwise. -/
def colorLine (line : PyStr) : PyStr :=
  if (toL "+++").isPrefixOf line || (toL "---").isPrefixOf line then
    toL "\x1b[1m" ++ line ++ toL "\x1b[0m"
  else if (toL "@@").isPrefixOf line then
    toL "\x1b[36m" ++ line ++ toL "\x1b[0m"
  else if (toL "+").isPrefixOf line then
    toL "\x1b[32m" ++ line ++ toL "\x1b[0m"
  else if (toL "-").isPrefixOf line then
    toL "\x1b[31m" ++ line ++ toL "\x1b[0m"
  else
    line

/-- `colorize_diff` (lines 10-32): split on newlines, colour each line,
join with newlines. -/
def colorize_diff (diff_text : PyStr) : PyStr :=
  joinWith '\n' ((splitOnChar '\n' diff_text).map colorLine)

/-- The exemplar confirmation test (lines 172-173):
`input(...).strip().lower() in ['y', 'yes']`. -/
def isAffirmative (s : PyStr) : Bool :=
  decide (pyStripLower s = toL "y" ∨ pyStripLower s = toL "yes")

/-- Token resolution in `GitHubAPIClient.__init__` (lines 36-39):
`self.token = token or os.getenv('GITHUB_TOKEN')`; `None` and the empty
string are falsy; `if not self.token: raise ValueError(...)`. -/
def resolveToken (tokenArg envTok : Option PyStr) : Option PyStr :=
  let pick := match tokenArg with
    | some t => if t = [] then envTok else some t
    | none => envTok
  match pick with
  | some t => if t = [] then none else some t
  | none => none

/-- Observable events of the review loop (lines 192-221): an interactive
prompt shown (`input` consumed), an approve or merge API call issued, a
per-PR success or caught failure, a skip, or the `s` stop. -/
inductive RevEvent where
  | prompt (pr : PRItem)
  | approveAttempt (pr : PRItem)
  | mergeAttempt (pr : PRItem)
  | success (pr : PRItem)
  | failure (pr : PRItem)
  | skipped (pr : PRItem)
  | stopped
deriving DecidableEq, Repr

/-- The body of the per-PR `try` block (lines 212-221): call `approve_pr`
then `merge_pr` on the PR's `html_url`; any exception is caught and recorded
as a per-PR failure, and never escapes. -/
def processPR (aO : PyStr → PyStr → PyStr → Except Err Unit)
    (mO : PyStr → PyStr → PyStr → PyStr → Except Err Unit)
    (pr : PRItem) : List RevEvent :=
  match approve_pr aO pr.html_url with
  | .error _ => [.approveAttempt pr, .failure pr]
  | .ok _ =>
    match merge_pr mO pr.html_url (toL "squash") with
    | .error _ => [.approveAttempt pr, .mergeAttempt pr, .failure pr]
    | .ok _ => [.approveAttempt pr, .mergeAttempt pr, .success pr]

/-- The review loop (lines 192-221) as an event trace.  `i` is the index of
the next `input()` answer, the `Bool` is the `auto_approve_all` flag.  When
the flag is set no prompt is shown; otherwise the stripped, lowercased
answer is matched: `'s'` breaks, `'a'` sets the flag and processes this and
all remaining PRs, anything outside `['y', 'yes']` skips, and an
affirmative answer processes the current PR. -/
def reviewLoop (aO : PyStr → PyStr → PyStr → Except Err Unit)
    (mO : PyStr → PyStr → PyStr → PyStr → Except Err Unit)
    (inputs : Nat → PyStr) : Nat → Bool → List PRItem → List RevEvent
  | _, _, [] => []
  | i, true, pr :: rest => processPR aO mO pr ++ reviewLoop aO mO inputs i true rest
  | i, false, pr :: rest =>
    let ans := pyStripLower (inputs i)
    if ans = toL "s" then
      [.prompt pr, .stopped]
    else if ans = toL "a" then
      .prompt pr :: (processPR aO mO pr ++ reviewLoop aO mO inputs (i + 1) true rest)
    else if ans = toL "y" ∨ ans = toL "yes" then
      .prompt pr :: (processPR aO mO pr ++ reviewLoop aO mO inputs (i + 1) false rest)
    else
      .prompt pr :: .skipped pr :: reviewLoop aO mO inputs (i + 1) false rest

/-- `main` (lines 136-228) reduced to its exit code.  Oracles: `tokA` is
`args.token`, `tokE` the `GITHUB_TOKEN` environment variable, `sR` the raw
search response, `fO`/`aO`/`mO` the diff/approve/merge endpoints, `inp` the
stream of interactive answers (answer 0 is the exemplar confirmation, the
review loop consumes answers from 1 on).  Every exception reaching the
outer `try` yields `sys.exit(1)`; the `repository_url` tuple unpacking of
the match-listing loop (line 187) raises iff some match's `repository_url`
splits into fewer than two parts.  Normal completion, user abort, zero
results and the review loop (which catches all its per-PR errors) all fall
through to exit code 0. -/
def main_exit (tokA tokE : Option PyStr) (sR : Except Err (List PRItem))
    (fO : PyStr → PyStr → PyStr → Except Err PyStr)
    (aO : PyStr → PyStr → PyStr → Except Err Unit)
    (mO : PyStr → PyStr → PyStr → PyStr → Except Err Unit)
    (inp : Nat → PyStr) (title_pre example_pr : PyStr) : Nat :=
  match resolveToken tokA tokE with
  | none => 1
  | some _ =>
    match search_assigned_prs sR title_pre with
    | .error _ => 1
    | .ok prs =>
      if prs = [] then 0
      else
        match get_pr_diff fO example_pr with
        | .error _ => 1
        | .ok example_diff =>
          if isAffirmative (inp 0) then
            match find_matching_prs fO prs example_diff with
            | .error _ => 1
            | .ok ms =>
              if ms = [] then 0
              else if ms.all
                  (fun q => decide (2 ≤ (splitOnChar '/' q.repository_url).length)) then
                let _evs := reviewLoop aO mO inp 1 false ms
                0
              else 1
          else 0

/-! ## Lemmas about the string primitives -/

theorem splitOnChar_ne_nil (c : Char) (l : List Char) : splitOnChar c l ≠ [] := by
  induction l with
  | nil => simp [splitOnChar]
  | cons a rest ih =>
    rw [splitOnChar]
    split
    · simp
    · split <;> simp

theorem splitOnChar_sep_cons (c : Char) (l : List Char) :
    splitOnChar c (c :: l) = [] :: splitOnChar c l := by
  simp [splitOnChar]

theorem splitOnChar_no_sep (c : Char) (l : List Char) (h : ∀ a ∈ l, a ≠ c) :
    splitOnChar c l = [l] := by
  induction l with
  | nil => simp [splitOnChar]
  | cons a rest ih =>
    have ha : a ≠ c := h a (by simp)
    have hr := ih (fun b hb => h b (by simp [hb]))
    simp only [splitOnChar, if_neg ha, hr]

theorem splitOnChar_append_sep (c : Char) (xs ys : List Char)
    (h : ∀ a ∈ xs, a ≠ c) :
    splitOnChar c (xs ++ c :: ys) = xs :: splitOnChar c ys := by
  induction xs with
  | nil => simp [splitOnChar_sep_cons]
  | cons a xs ih =>
    have ha : a ≠ c := h a (by simp)
    have hr := ih (fun b hb => h b (by simp [hb]))
    simp only [List.cons_append, splitOnChar, List.append_eq, if_neg ha, hr]

theorem splitOnChar_append_last (c : Char) (xs : List Char) :
    splitOnChar c (xs ++ [c]) = splitOnChar c xs ++ [[]] := by
  induction xs with
  | nil => simp [splitOnChar]
  | cons a xs ih =>
    by_cases ha : a = c
    · subst ha
      simp only [List.cons_append, splitOnChar_sep_cons, ih]
    · obtain ⟨h₀, t₀, ht⟩ : ∃ h₀ t₀, splitOnChar c xs = h₀ :: t₀ := by
        cases hx : splitOnChar c xs with
        | nil => exact absurd hx (splitOnChar_ne_nil c xs)
        | cons h₀ t₀ => exact ⟨h₀, t₀, rfl⟩
      simp only [List.cons_append, splitOnChar, List.append_eq, if_neg ha, ih, ht]

theorem splitOnChar_append_replicate (c : Char) (k : Nat) (xs : List Char) :
    splitOnChar c (xs ++ List.replicate k c) =
      splitOnChar c xs ++ List.replicate k [] := by
  induction k generalizing xs with
  | zero => simp
  | succ k ih =>
    have h : xs ++ List.replicate (k + 1) c = (xs ++ [c]) ++ List.replicate k c := by
      simp [List.replicate_succ, List.append_assoc]
    rw [h, ih, splitOnChar_append_last]
    simp [List.replicate_succ]

theorem rstripChar_decomp (c : Char) (l : List Char) :
    ∃ k, l = rstripChar c l ++ List.replicate k c := by
  have h1 : ∀ a ∈ l.reverse.takeWhile (fun a => decide (a = c)), a = c := by
    intro a ha
    simpa using List.mem_takeWhile_imp ha
  have h2 : l.reverse.takeWhile (fun a => decide (a = c)) =
      List.replicate (l.reverse.takeWhile (fun a => decide (a = c))).length c :=
    List.eq_replicate_of_mem h1
  refine ⟨(l.reverse.takeWhile (fun a => decide (a = c))).length, ?_⟩
  conv_lhs => rw [← List.reverse_reverse l,
    ← List.takeWhile_append_dropWhile (fun a => decide (a = c)) l.reverse]
  rw [List.reverse_append]
  congr 1
  rw [h2]
  simp

theorem rstripChar_append_of_ne (c : Char) (xs n : List Char)
    (hne : n ≠ []) (h : ∀ a ∈ n, a ≠ c) :
    rstripChar c (xs ++ n) = xs ++ n := by
  rcases List.eq_nil_or_concat n with rfl | ⟨ys, b, rfl⟩
  · exact absurd rfl hne
  · simp only [List.concat_eq_append] at h
    have hb : b ≠ c := h b (by simp)
    unfold rstripChar
    rw [List.concat_eq_append,
      show xs ++ (ys ++ [b]) = (xs ++ ys) ++ [b] from by simp [List.append_assoc],
      List.reverse_append]
    simp only [List.reverse_cons, List.reverse_nil, List.nil_append,
      List.singleton_append, List.dropWhile_cons]
    simp [hb]

theorem joinWith_splitOnChar (c : Char) (xs : List (List Char))
    (hne : xs ≠ []) (h : ∀ x ∈ xs, ∀ a ∈ x, a ≠ c) :
    splitOnChar c (joinWith c xs) = xs := by
  induction xs with
  | nil => exact absurd rfl hne
  | cons x xs ih =>
    cases xs with
    | nil =>
      simp only [joinWith]
      exact splitOnChar_no_sep c x (h x (by simp))
    | cons y ys =>
      rw [joinWith, splitOnChar_append_sep c x (joinWith c (y :: ys))
        (h x (by simp))]
      rw [ih (by simp) (fun z hz => h z (by simp [hz]))]

theorem pyStrip_append_space (d : PyStr) (c : Char) (hc : pyIsSpace c = true) :
    pyStrip (d ++ [c]) = pyStrip d := by
  by_cases h : d.dropWhile pyIsSpace = []
  · have hall : ∀ x ∈ d, pyIsSpace x := List.dropWhile_eq_nil_iff.mp h
    have h2 : (d ++ [c]).dropWhile pyIsSpace = [] := by
      rw [List.dropWhile_eq_nil_iff]
      intro x hx
      rcases List.mem_append.mp hx with hx | hx
      · exact hall x hx
      · simp only [List.mem_singleton] at hx
        rw [hx]
        exact hc
    unfold pyStrip
    rw [h, h2]
  · have hne : (d.dropWhile pyIsSpace).isEmpty = false := by
      cases hd : d.dropWhile pyIsSpace with
      | nil => exact absurd hd h
      | cons a t => rfl
    unfold pyStrip
    rw [List.dropWhile_append, hne]
    simp only [Bool.false_eq_true, if_false, ite_false]
    rw [List.reverse_append]
    simp only [List.reverse_cons, List.reverse_nil, List.nil_append,
      List.singleton_append, List.dropWhile_cons]
    simp [hc]

/-! ## Review-loop machinery -/

/-- The events produced by processing every PR of a list in order with no
prompting (the `auto_approve_all` mode of the loop). -/
def processedEvents (aO : PyStr → PyStr → PyStr → Except Err Unit)
    (mO : PyStr → PyStr → PyStr → PyStr → Except Err Unit) :
    List PRItem → List RevEvent
  | [] => []
  | pr :: rest => processPR aO mO pr ++ processedEvents aO mO rest

/-- Number of interactive prompts in an event trace. -/
def countPrompts (evs : List RevEvent) : Nat :=
  evs.countP (fun e => match e with | .prompt _ => true | _ => false)

theorem countPrompts_processPR (aO : PyStr → PyStr → PyStr → Except Err Unit)
    (mO : PyStr → PyStr → PyStr → PyStr → Except Err Unit) (pr : PRItem) :
    countPrompts (processPR aO mO pr) = 0 := by
  unfold processPR countPrompts
  cases approve_pr aO pr.html_url with
  | error e => rfl
  | ok u =>
    cases merge_pr mO pr.html_url (toL "squash") with
    | error e => rfl
    | ok u => rfl

theorem countPrompts_processedEvents (aO : PyStr → PyStr → PyStr → Except Err Unit)
    (mO : PyStr → PyStr → PyStr → PyStr → Except Err Unit) (prs : List PRItem) :
    countPrompts (processedEvents aO mO prs) = 0 := by
  induction prs with
  | nil => rfl
  | cons pr rest ih =>
    unfold processedEvents countPrompts
    rw [List.countP_append]
    have h1 := countPrompts_processPR aO mO pr
    unfold countPrompts at h1
    unfold countPrompts at ih
    rw [h1, ih]

theorem approveAttempt_mem_processPR (aO : PyStr → PyStr → PyStr → Except Err Unit)
    (mO : PyStr → PyStr → PyStr → PyStr → Except Err Unit) (pr : PRItem) :
    RevEvent.approveAttempt pr ∈ processPR aO mO pr := by
  unfold processPR
  cases approve_pr aO pr.html_url with
  | error e => simp
  | ok u =>
    cases merge_pr mO pr.html_url (toL "squash") with
    | error e => simp
    | ok u => simp

theorem approveAttempt_mem_processedEvents
    (aO : PyStr → PyStr → PyStr → Except Err Unit)
    (mO : PyStr → PyStr → PyStr → PyStr → Except Err Unit)
    (prs : List PRItem) (q : PRItem) (hq : q ∈ prs) :
    RevEvent.approveAttempt q ∈ processedEvents aO mO prs := by
  induction prs with
  | nil => simp at hq
  | cons pr rest ih =>
    unfold processedEvents
    rcases List.mem_cons.mp hq with rfl | hq
    · exact List.mem_append_left _ (approveAttempt_mem_processPR aO mO q)
    · exact List.mem_append_right _ (ih hq)

theorem reviewLoop_auto (aO : PyStr → PyStr → PyStr → Except Err Unit)
    (mO : PyStr → PyStr → PyStr → PyStr → Except Err Unit)
    (inputs : Nat → PyStr) (i : Nat) (prs : List PRItem) :
    reviewLoop aO mO inputs i true prs = processedEvents aO mO prs := by
  induction prs generalizing i with
  | nil => rfl
  | cons pr rest ih => simp only [reviewLoop, processedEvents, ih]

/-! ## Concrete fixtures used by witnesses -/

/-- A concrete PR item, first of three. -/
def pW1 : PRItem :=
  ⟨toL "abc: one", toL "https://github.com/me/r1/pull/1",
   toL "https://api.github.com/repos/me/r1", 1⟩

/-- A concrete PR item, second of three. -/
def pW2 : PRItem :=
  ⟨toL "abc: two", toL "https://github.com/me/r2/pull/2",
   toL "https://api.github.com/repos/me/r2", 2⟩

/-- A concrete PR item, third of three. -/
def pW3 : PRItem :=
  ⟨toL "abc: three", toL "https://github.com/me/r3/pull/3",
   toL "https://api.github.com/repos/me/r3", 3⟩

/-- A concrete approve oracle that raises a transport error exactly on
repository `r2` (the second PR) and succeeds elsewhere. -/
def aOW : PyStr → PyStr → PyStr → Except Err Unit :=
  fun _ r _ => if r = toL "r2" then .error .transport else .ok ()

/-- A concrete merge oracle that always succeeds. -/
def mOW : PyStr → PyStr → PyStr → PyStr → Except Err Unit :=
  fun _ _ _ _ => .ok ()

/-- A concrete input stream that always answers `a`. -/
def inAW : Nat → PyStr := fun _ => toL "a"

/-- A concrete input stream that always answers `s`. -/
def inSW : Nat → PyStr := fun _ => toL "s"

/-! ## Claims C3 and C7: the review loop -/

/-- Claim C3: once the user answers `a` on some match, the whole remaining
trace is exactly one prompt followed by the processing of the current and
every later match with no further prompt, and every match of the list
(current included) gets an approve attempt — the approve/merge oracles are
arbitrary, so a match whose approve call raises does not prevent the later
matches from being attempted. -/
theorem c3_auto_approve_continues (aO : PyStr → PyStr → PyStr → Except Err Unit)
    (mO : PyStr → PyStr → PyStr → PyStr → Except Err Unit)
    (inputs : Nat → PyStr) (i : Nat) (pr : PRItem) (rest : List PRItem)
    (h : pyStripLower (inputs i) = toL "a") :
    reviewLoop aO mO inputs i false (pr :: rest) =
      .prompt pr :: processedEvents aO mO (pr :: rest) ∧
    countPrompts (reviewLoop aO mO inputs i false (pr :: rest)) = 1 ∧
    ∀ q ∈ pr :: rest,
      RevEvent.approveAttempt q ∈ reviewLoop aO mO inputs i false (pr :: rest) := by
  have heq : reviewLoop aO mO inputs i false (pr :: rest) =
      .prompt pr :: processedEvents aO mO (pr :: rest) := by
    have hns : toL "a" ≠ toL "s" := by decide
    simp [reviewLoop, h, reviewLoop_auto, processedEvents, hns]
  refine ⟨heq, ?_, ?_⟩
  · rw [heq]
    unfold countPrompts
    rw [List.countP_cons]
    have h0 := countPrompts_processedEvents aO mO (pr :: rest)
    unfold countPrompts at h0
    rw [h0]
    rfl
  · intro q hq
    rw [heq]
    exact List.mem_cons_of_mem _ (approveAttempt_mem_processedEvents aO mO _ q hq)

/-- Witness for C3: answering `a` on the first of three concrete matches —
with an approve oracle that raises on the second — yields a trace with a
single prompt in which all three matches still get an approve attempt. -/
theorem c3_witness :
    countPrompts (reviewLoop aOW mOW inAW 0 false [pW1, pW2, pW3]) = 1 ∧
    RevEvent.approveAttempt pW1 ∈ reviewLoop aOW mOW inAW 0 false [pW1, pW2, pW3] ∧
    RevEvent.approveAttempt pW2 ∈ reviewLoop aOW mOW inAW 0 false [pW1, pW2, pW3] ∧
    RevEvent.approveAttempt pW3 ∈ reviewLoop aOW mOW inAW 0 false [pW1, pW2, pW3] := by
  have h := c3_auto_approve_continues aOW mOW inAW 0 pW1 [pW2, pW3] (by decide)
  exact ⟨h.2.1, h.2.2 pW1 (by decide), h.2.2 pW2 (by decide), h.2.2 pW3 (by decide)⟩

/-- Claim C7: answering `s` at the prompt for a match stops processing
immediately — the trace is just that prompt and the stop, so no approve or
merge is attempted for the current match or any later one, and the
remaining matches are neither processed nor reported. -/
theorem c7_stop_immediately (aO : PyStr → PyStr → PyStr → Except Err Unit)
    (mO : PyStr → PyStr → PyStr → PyStr → Except Err Unit)
    (inputs : Nat → PyStr) (i : Nat) (pr : PRItem) (rest : List PRItem)
    (h : pyStripLower (inputs i) = toL "s") :
    reviewLoop aO mO inputs i false (pr :: rest) = [.prompt pr, .stopped] := by
  simp [reviewLoop, h]

/-- Witness for C7: answering `s` on the second of three concrete matches
(after skipping the first) leaves the trace of the tail at exactly one
prompt and the stop. -/
theorem c7_witness :
    reviewLoop aOW mOW inSW 1 false [pW2, pW3] = [.prompt pW2, .stopped] :=
  c7_stop_immediately aOW mOW inSW 1 pW2 [pW3] (by decide)

/-! ## Claims C2 and C6: the matcher -/

instance decEqExcept {α β : Type} [DecidableEq α] [DecidableEq β] :
    DecidableEq (Except α β) := fun x y =>
  match x, y with
  | .error a, .error b => decidable_of_iff (a = b) (by simp)
  | .error _, .ok _ => isFalse (fun hc => Except.noConfusion hc)
  | .ok _, .error _ => isFalse (fun hc => Except.noConfusion hc)
  | .ok a, .ok b => decidable_of_iff (a = b) (by simp)

theorem find_matching_prs_filter (fetchO : PyStr → PyStr → PyStr → Except Err PyStr)
    (diffOf : PRItem → PyStr) (assigned : List PRItem) (ex : PyStr)
    (h : ∀ pr ∈ assigned, get_pr_diff fetchO pr.html_url = .ok (diffOf pr)) :
    find_matching_prs fetchO assigned ex =
      .ok (assigned.filter (fun pr => decide (pyStrip (diffOf pr) = pyStrip ex))) := by
  induction assigned with
  | nil => rfl
  | cons pr rest ih =>
    have hpr := h pr (by simp)
    have hrest := ih (fun q hq => h q (by simp [hq]))
    rw [find_matching_prs, hpr, hrest]
    by_cases hd : pyStrip (diffOf pr) = pyStrip ex
    · simp [List.filter_cons, hd]
    · simp [List.filter_cons, hd]

/-- Claim C2: when every candidate's diff fetch succeeds,
`find_matching_prs` returns exactly the order-preserving subsequence
(filter) of the candidates whose trimmed diff equals the trimmed exemplar
diff; and trimming erases a trailing newline, so a candidate differing from
the exemplar only by a trailing newline is kept. -/
theorem c2_matching_is_trimmed_filter
    (fetchO : PyStr → PyStr → PyStr → Except Err PyStr)
    (diffOf : PRItem → PyStr) (assigned : List PRItem) (ex : PyStr)
    (h : ∀ pr ∈ assigned, get_pr_diff fetchO pr.html_url = .ok (diffOf pr)) :
    find_matching_prs fetchO assigned ex =
      .ok (assigned.filter (fun pr => decide (pyStrip (diffOf pr) = pyStrip ex))) ∧
    List.Sublist
      (assigned.filter (fun pr => decide (pyStrip (diffOf pr) = pyStrip ex)))
      assigned ∧
    ∀ d : PyStr, pyStrip (d ++ toL "\n") = pyStrip d :=
  ⟨find_matching_prs_filter fetchO diffOf assigned ex h,
   List.filter_sublist _,
   fun d => pyStrip_append_space d '\n' (by decide)⟩

/-- A concrete diff-fetch oracle for the C2 witness: repository `r1` has
diff `"line1\nline2"` (no trailing newline), `r2` a different diff. -/
def fOW : PyStr → PyStr → PyStr → Except Err PyStr :=
  fun _ r _ =>
    if r = toL "r1" then .ok (toL "line1\nline2")
    else if r = toL "r2" then .ok (toL "other")
    else .error .transport

/-- The diffs `fOW` serves, as a function of the PR item. -/
def dW : PRItem → PyStr :=
  fun pr => if pr.number = 1 then toL "line1\nline2" else toL "other"

/-- Witness for C2: with exemplar diff `"line1\nline2\n"`, the candidate
whose diff is `"line1\nline2"` (trailing newline missing) is kept and the
non-matching candidate is dropped. -/
theorem c2_witness :
    find_matching_prs fOW [pW1, pW2] (toL "line1\nline2\n") = .ok [pW1] ∧
    pyStrip (toL "line1\nline2" ++ toL "\n") = pyStrip (toL "line1\nline2") := by
  have h := c2_matching_is_trimmed_filter fOW dW [pW1, pW2]
    (toL "line1\nline2\n") (by decide)
  refine ⟨?_, h.2.2 (toL "line1\nline2")⟩
  rw [h.1]
  decide

/-- Claim C6: if fetching the diff of any single candidate raises, the whole
matching pass aborts with an error — `find_matching_prs` returns no partial
result. -/
theorem c6_fetch_error_aborts (fetchO : PyStr → PyStr → PyStr → Except Err PyStr)
    (assigned : List PRItem) (ex : PyStr) (pr : PRItem) (e : Err)
    (hpr : pr ∈ assigned) (he : get_pr_diff fetchO pr.html_url = .error e) :
    ∃ e2, find_matching_prs fetchO assigned ex = .error e2 := by
  induction assigned with
  | nil => simp at hpr
  | cons q rest ih =>
    rcases List.mem_cons.mp hpr with rfl | hmem
    · exact ⟨e, by rw [find_matching_prs, he]⟩
    · cases hq : get_pr_diff fetchO q.html_url with
      | error e3 => exact ⟨e3, by rw [find_matching_prs, hq]⟩
      | ok d =>
        obtain ⟨e2, h2⟩ := ih hmem
        exact ⟨e2, by rw [find_matching_prs, hq, h2]⟩

/-- A concrete diff-fetch oracle for the C6 witness: raises a transport
error exactly on repository `r2`. -/
def fOW6 : PyStr → PyStr → PyStr → Except Err PyStr :=
  fun _ r _ => if r = toL "r2" then .error .transport else .ok (toL "d")

/-- Witness for C6: the second of three concrete candidates fails to fetch,
and the whole matching pass returns an error. -/
theorem c6_witness :
    pW2 ∈ [pW1, pW2, pW3] ∧
    get_pr_diff fOW6 pW2.html_url = .error Err.transport ∧
    ∃ e2, find_matching_prs fOW6 [pW1, pW2, pW3] (toL "d") = .error e2 :=
  ⟨by decide, by decide,
   c6_fetch_error_aborts fOW6 [pW1, pW2, pW3] (toL "d") pW2 .transport
     (by decide) (by decide)⟩

/-! ## Claim C8: title filtering -/

/-- A concrete PR titled `abc-feature`. -/
def pF : PRItem := ⟨toL "abc-feature", [], [], 0⟩

/-- A concrete PR titled `abc: fix`. -/
def pT1 : PRItem := ⟨toL "abc: fix", [], [], 0⟩

/-- A concrete PR titled `xyz: other`. -/
def pT2 : PRItem := ⟨toL "xyz: other", [], [], 0⟩

/-- A concrete PR titled `abc: cleanup`. -/
def pT3 : PRItem := ⟨toL "abc: cleanup", [], [], 0⟩

/-- Claim C8: `search_assigned_prs` keeps exactly the items whose title has
the given string as an exact, case-sensitive prefix, preserving order; in
particular `abc-feature` matches prefix `abc` but not `ABC` or `bc`, and of
the titles `abc: fix`, `xyz: other`, `abc: cleanup` the first and third are
kept for `abc`. -/
theorem c8_title_filter_exact :
    (∀ (items : List PRItem) (p : PyStr),
      search_assigned_prs (.ok items) p =
        .ok (items.filter (fun q => p.isPrefixOf q.title)) ∧
      List.Sublist (items.filter (fun q => p.isPrefixOf q.title)) items ∧
      ∀ q, q ∈ items.filter (fun q => p.isPrefixOf q.title) ↔
        q ∈ items ∧ p.isPrefixOf q.title = true) ∧
    search_assigned_prs (.ok [pF]) (toL "abc") = .ok [pF] ∧
    search_assigned_prs (.ok [pF]) (toL "ABC") = .ok [] ∧
    search_assigned_prs (.ok [pF]) (toL "bc") = .ok [] ∧
    search_assigned_prs (.ok [pT1, pT2, pT3]) (toL "abc") = .ok [pT1, pT3] := by
  refine ⟨fun items p => ⟨rfl, List.filter_sublist _, fun q => List.mem_filter⟩,
    by decide, by decide, by decide, by decide⟩

/-! ## Claim C9: diff colorizing -/

theorem isPrefixOf_single_iff (c : Char) (l : PyStr) :
    [c].isPrefixOf l = true ↔ ∃ t, l = c :: t := by
  cases l with
  | nil => simp [List.isPrefixOf]
  | cons a t =>
    simp only [List.isPrefixOf, Bool.and_true, beq_iff_eq]
    constructor
    · intro h
      exact ⟨t, by rw [h]⟩
    · rintro ⟨t', ht⟩
      rw [List.cons.injEq] at ht
      exact ht.1.symm

theorem colorLine_green (l : PyStr) (h1 : (toL "+").isPrefixOf l = true)
    (h2 : (toL "+++").isPrefixOf l = false) :
    colorLine l = toL "\x1b[32m" ++ l ++ toL "\x1b[0m" := by
  obtain ⟨t, rfl⟩ := (isPrefixOf_single_iff '+' l).mp h1
  have h3 : (toL "---").isPrefixOf ('+' :: t) = false := by
    rw [show toL "---" = '-' :: toL "--" from rfl]
    simp [List.isPrefixOf]
  have h4 : (toL "@@").isPrefixOf ('+' :: t) = false := by
    rw [show toL "@@" = '@' :: toL "@" from rfl]
    simp [List.isPrefixOf]
  simp [colorLine, h1, h2, h3, h4]

theorem colorLine_passthrough (l : PyStr)
    (h1 : (toL "+").isPrefixOf l = false) (h2 : (toL "-").isPrefixOf l = false)
    (h3 : (toL "@@").isPrefixOf l = false)
    (h4 : (toL "+++").isPrefixOf l = false)
    (h5 : (toL "---").isPrefixOf l = false) :
    colorLine l = l := by
  simp [colorLine, h1, h2, h3, h4, h5]

theorem colorize_diff_single (l : PyStr) (h : ∀ a ∈ l, a ≠ '\n') :
    colorize_diff l = colorLine l := by
  unfold colorize_diff
  rw [splitOnChar_no_sep '\n' l h]
  rfl

/-- Claim C9 (amended): on a diff, `colorize_diff` acts line by line; a
line beginning with `+` but not with `+++` is wrapped in the green ANSI
escape sequence with its text otherwise unmodified, and a line beginning
with none of `+`, `-`, `@@`, `+++`, `---` passes through unchanged.  (The
claim's unrestricted `+` case is refuted by `c9_counterexample`: a line
beginning with `+++` takes the bold file-header branch.) -/
theorem c9_colorize_lines :
    (∀ lines : List PyStr, (∀ x ∈ lines, ∀ a ∈ x, a ≠ '\n') → lines ≠ [] →
      colorize_diff (joinWith '\n' lines) = joinWith '\n' (lines.map colorLine)) ∧
    (∀ l : PyStr, (∀ a ∈ l, a ≠ '\n') → (toL "+").isPrefixOf l = true →
      (toL "+++").isPrefixOf l = false →
      colorize_diff l = toL "\x1b[32m" ++ l ++ toL "\x1b[0m") ∧
    (∀ l : PyStr, (∀ a ∈ l, a ≠ '\n') →
      (toL "+").isPrefixOf l = false → (toL "-").isPrefixOf l = false →
      (toL "@@").isPrefixOf l = false → (toL "+++").isPrefixOf l = false →
      (toL "---").isPrefixOf l = false →
      colorize_diff l = l) := by
  refine ⟨?_, ?_, ?_⟩
  · intro lines hnl hne
    unfold colorize_diff
    rw [joinWith_splitOnChar '\n' lines hne hnl]
  · intro l hnl h1 h2
    rw [colorize_diff_single l hnl, colorLine_green l h1 h2]
  · intro l hnl h1 h2 h3 h4 h5
    rw [colorize_diff_single l hnl, colorLine_passthrough l h1 h2 h3 h4 h5]

/-- Counterexample for C9 as stated: the line `+++ b/file` begins with `+`
but `colorize_diff` wraps it in the bold escape sequence, not the green
one. -/
theorem c9_counterexample :
    (toL "+").isPrefixOf (toL "+++ b/file") = true ∧
    colorize_diff (toL "+++ b/file") =
      toL "\x1b[1m" ++ toL "+++ b/file" ++ toL "\x1b[0m" ∧
    colorize_diff (toL "+++ b/file") ≠
      toL "\x1b[32m" ++ toL "+++ b/file" ++ toL "\x1b[0m" := by
  decide

/-- Witness for C9: a single added line is green-wrapped and a context line
passes through unchanged. -/
theorem c9_witness :
    colorize_diff (toL "+added") = toL "\x1b[32m" ++ toL "+added" ++ toL "\x1b[0m" ∧
    colorize_diff (toL " context") = toL " context" :=
  ⟨c9_colorize_lines.2.1 (toL "+added") (by decide) (by decide) (by decide),
   c9_colorize_lines.2.2 (toL " context") (by decide) (by decide) (by decide)
     (by decide) (by decide) (by decide)⟩

/-! ## Claim C10: answer normalization -/

/-- Claim C10: interactive answers are stripped and lowercased before
comparison — the exemplar confirmation accepts `Y`, `YES` and `  yes  `;
any answer not normalizing to `y`/`yes` (the empty answer included) is
negative; and in the review loop an answer ` S ` or ` A ` behaves exactly
like `s` or `a`, while an answer normalizing to none of `s`, `a`, `y`,
`yes` skips the current match. -/
theorem c10_answers_normalized :
    isAffirmative (toL "Y") = true ∧
    isAffirmative (toL "YES") = true ∧
    isAffirmative (toL " yes ") = true ∧
    isAffirmative (toL "") = false ∧
    (∀ s : PyStr, pyStripLower s ≠ toL "y" → pyStripLower s ≠ toL "yes" →
      isAffirmative s = false) ∧
    (∀ (aO : PyStr → PyStr → PyStr → Except Err Unit)
       (mO : PyStr → PyStr → PyStr → PyStr → Except Err Unit)
       (inputs : Nat → PyStr) (i : Nat) (pr : PRItem) (rest : List PRItem),
      inputs i = toL " S " →
      reviewLoop aO mO inputs i false (pr :: rest) = [.prompt pr, .stopped]) ∧
    (∀ (aO : PyStr → PyStr → PyStr → Except Err Unit)
       (mO : PyStr → PyStr → PyStr → PyStr → Except Err Unit)
       (inputs : Nat → PyStr) (i : Nat) (pr : PRItem) (rest : List PRItem),
      inputs i = toL " A " →
      reviewLoop aO mO inputs i false (pr :: rest) =
        .prompt pr :: processedEvents aO mO (pr :: rest)) ∧
    (∀ (aO : PyStr → PyStr → PyStr → Except Err Unit)
       (mO : PyStr → PyStr → PyStr → PyStr → Except Err Unit)
       (inputs : Nat → PyStr) (i : Nat) (pr : PRItem) (rest : List PRItem),
      pyStripLower (inputs i) ≠ toL "s" → pyStripLower (inputs i) ≠ toL "a" →
      pyStripLower (inputs i) ≠ toL "y" → pyStripLower (inputs i) ≠ toL "yes" →
      reviewLoop aO mO inputs i false (pr :: rest) =
        .prompt pr :: .skipped pr :: reviewLoop aO mO inputs (i + 1) false rest) := by
  refine ⟨by decide, by decide, by decide, by decide, ?_, ?_, ?_, ?_⟩
  · intro s h1 h2
    simp [isAffirmative, h1, h2]
  · intro aO mO inputs i pr rest h
    have h' : pyStripLower (inputs i) = toL "s" := by rw [h]; decide
    simp [reviewLoop, h']
  · intro aO mO inputs i pr rest h
    have h' : pyStripLower (inputs i) = toL "a" := by rw [h]; decide
    have hns : toL "a" ≠ toL "s" := by decide
    simp [reviewLoop, h', reviewLoop_auto, processedEvents, hns]
  · intro aO mO inputs i pr rest h1 h2 h3 h4
    simp [reviewLoop, h1, h2, h3, h4]

/-- A concrete input stream answering ` S `. -/
def inCapS : Nat → PyStr := fun _ => toL " S "

/-- A concrete input stream answering ` A `. -/
def inCapA : Nat → PyStr := fun _ => toL " A "

/-- A concrete input stream answering `no`. -/
def inNo : Nat → PyStr := fun _ => toL "no"

/-- Witness for C10: ` S ` stops, ` A ` auto-approves, `no` is negative and
skips. -/
theorem c10_witness :
    reviewLoop aOW mOW inCapS 0 false [pW1] = [.prompt pW1, .stopped] ∧
    reviewLoop aOW mOW inCapA 0 false [pW1] =
      .prompt pW1 :: processedEvents aOW mOW [pW1] ∧
    isAffirmative (toL "no") = false ∧
    reviewLoop aOW mOW inNo 0 false [pW1] =
      .prompt pW1 :: .skipped pW1 :: reviewLoop aOW mOW inNo 1 false [] :=
  ⟨c10_answers_normalized.2.2.2.2.2.1 aOW mOW inCapS 0 pW1 [] rfl,
   c10_answers_normalized.2.2.2.2.2.2.1 aOW mOW inCapA 0 pW1 [] rfl,
   c10_answers_normalized.2.2.2.2.1 (toL "no") (by decide) (by decide),
   c10_answers_normalized.2.2.2.2.2.2.2 aOW mOW inNo 0 pW1 []
     (by decide) (by decide) (by decide) (by decide)⟩

/-! ## Claims C1 and C5: PR-URL decomposition -/

/-- The spec's canonical PR URL shape
`https://<host>/<owner>/<repo>/pull/<number>`. -/
def mkPrUrl (host owner repo n : PyStr) : PyStr :=
  toL "https://" ++ host ++ toL "/" ++ owner ++ toL "/" ++ repo ++
    toL "/pull/" ++ n

theorem decompose_mkPrUrl (host owner repo n : PyStr)
    (hh : '/' ∉ host) (ho : '/' ∉ owner) (hr : '/' ∉ repo) (hn : '/' ∉ n)
    (hne : n ≠ [])
    (hgh : listContains (mkPrUrl host owner repo n) (toL "github.com") = true) :
    decomposeUrl_getPrDiff (mkPrUrl host owner repo n) =
      some (owner, repo, n) := by
  have hr1 : rstripChar '/' (mkPrUrl host owner repo n) =
      mkPrUrl host owner repo n := by
    have hsh : mkPrUrl host owner repo n =
        (toL "https://" ++ host ++ toL "/" ++ owner ++ toL "/" ++ repo ++
          toL "/pull/") ++ n := by
      simp [mkPrUrl, List.append_assoc]
    rw [hsh]
    exact rstripChar_append_of_ne '/' _ n hne (fun a ha hac => hn (hac ▸ ha))
  have hshape : mkPrUrl host owner repo n =
      toL "https:" ++ '/' :: ('/' :: (host ++ '/' :: (owner ++ '/' ::
        (repo ++ '/' :: (toL "pull" ++ '/' :: n))))) := by
    simp only [mkPrUrl, List.append_assoc]
    rfl
  have hsplit : splitOnChar '/' (mkPrUrl host owner repo n) =
      [toL "https:", [], host, owner, repo, toL "pull", n] := by
    rw [hshape,
      splitOnChar_append_sep '/' (toL "https:") _ (by decide),
      splitOnChar_sep_cons,
      splitOnChar_append_sep '/' host _ (fun a ha hac => hh (hac ▸ ha)),
      splitOnChar_append_sep '/' owner _ (fun a ha hac => ho (hac ▸ ha)),
      splitOnChar_append_sep '/' repo _ (fun a ha hac => hr (hac ▸ ha)),
      splitOnChar_append_sep '/' (toL "pull") _ (by decide),
      splitOnChar_no_sep '/' n (fun a ha hac => hn (hac ▸ ha))]
  have hcond : ¬([toL "https:", [], host, owner, repo, toL "pull", n].length < 7 ∨
      listContains (mkPrUrl host owner repo n) (toL "github.com") = false ∨
      (toL "pull") ∉ [toL "https:", [], host, owner, repo, toL "pull", n]) := by
    intro hor
    rcases hor with h | h | h
    · simp at h
    · rw [hgh] at h
      exact absurd h (by decide)
    · exact h (by simp)
  simp only [decomposeUrl_getPrDiff, hr1, hsplit]
  rw [if_neg hcond]
  simp [List.getD]

theorem decompose_error_of_bad (url : PyStr)
    (h : (toL "pull") ∉ splitOnChar '/' url ∨ (splitOnChar '/' url).length < 7) :
    decomposeUrl_getPrDiff url = none := by
  obtain ⟨k, hk⟩ := rstripChar_decomp '/' url
  have hsplit : splitOnChar '/' url =
      splitOnChar '/' (rstripChar '/' url) ++ List.replicate k [] := by
    conv_lhs => rw [hk]
    exact splitOnChar_append_replicate '/' k _
  simp only [decomposeUrl_getPrDiff]
  rcases h with h | h
  · have hnp : (toL "pull") ∉ splitOnChar '/' (rstripChar '/' url) := by
      intro hmem
      exact h (hsplit ▸ List.mem_append_left _ hmem)
    rw [if_pos (Or.inr (Or.inr hnp))]
  · have hlen : (splitOnChar '/' (rstripChar '/' url)).length < 7 := by
      have hlen2 := congrArg List.length hsplit
      rw [List.length_append] at hlen2
      omega
    rw [if_pos (Or.inl hlen)]

/-- Claim C1 (amended): for every URL of the spec's shape
`https://host/OWNER/REPO/pull/N` — provided the URL contains `github.com`
as a substring, which the source additionally requires — decomposition
yields exactly `(OWNER, REPO, N)` and `get_pr_diff` calls the network with
that triple; and every URL whose `/`-delimited components lack a `pull`
component, or with fewer than 7 components, is rejected with the
invalid-reference error before any network call (the result is the error
for every fetch oracle).  The claim's unconditional success half is refuted
by `c1_counterexample`: a non-`github.com` host of the claimed shape is
rejected. -/
theorem c1_url_decomposition :
    (∀ host owner repo n : PyStr, '/' ∉ host → '/' ∉ owner → '/' ∉ repo →
      '/' ∉ n → n ≠ [] →
      listContains (mkPrUrl host owner repo n) (toL "github.com") = true →
      decomposeUrl_getPrDiff (mkPrUrl host owner repo n) = some (owner, repo, n) ∧
      ∀ fO, get_pr_diff fO (mkPrUrl host owner repo n) = fO owner repo n) ∧
    (∀ url : PyStr,
      (toL "pull") ∉ splitOnChar '/' url ∨ (splitOnChar '/' url).length < 7 →
      decomposeUrl_getPrDiff url = none ∧
      ∀ fO, get_pr_diff fO url = .error (.valueError invalidMsg)) := by
  constructor
  · intro host owner repo n hh ho hr hn hne hgh
    have hd := decompose_mkPrUrl host owner repo n hh ho hr hn hne hgh
    exact ⟨hd, fun fO => by simp [get_pr_diff, hd]⟩
  · intro url h
    have hd := decompose_error_of_bad url h
    exact ⟨hd, fun fO => by simp [get_pr_diff, hd]⟩

/-- Counterexample for C1 as stated: `https://example.com/octo/hello/pull/7`
has exactly the claimed shape `https://host/OWNER/REPO/pull/N`, yet
decomposition rejects it (the source also demands that `github.com` occur
in the URL), so `get_pr_diff` raises instead of yielding
`("octo", "hello", "7")`. -/
theorem c1_counterexample :
    toL "https://example.com/octo/hello/pull/7" =
      mkPrUrl (toL "example.com") (toL "octo") (toL "hello") (toL "7") ∧
    decomposeUrl_getPrDiff (toL "https://example.com/octo/hello/pull/7") = none ∧
    get_pr_diff (fun _ _ _ => .ok (toL "d"))
      (toL "https://example.com/octo/hello/pull/7") =
      .error (.valueError invalidMsg) := by
  decide

/-- Witness for C1: a concrete well-shaped `github.com` URL decomposes to
its owner/repo/number, and a concrete short URL is rejected. -/
theorem c1_witness :
    decomposeUrl_getPrDiff
        (mkPrUrl (toL "github.com") (toL "octo") (toL "hello") (toL "7")) =
      some (toL "octo", toL "hello", toL "7") ∧
    decomposeUrl_getPrDiff (toL "https://github.com/a/b") = none := by
  have h1 := (c1_url_decomposition.1 (toL "github.com") (toL "octo")
    (toL "hello") (toL "7") (by decide) (by decide) (by decide) (by decide)
    (by decide) (by decide)).1
  have h2 := (c1_url_decomposition.2 (toL "https://github.com/a/b")
    (by decide)).1
  exact ⟨h1, h2⟩

/-- Claim C5: the URL validation and decomposition of `get_pr_diff`,
`approve_pr` and `merge_pr` are identical — on every URL the three either
derive the same `(owner, repo, number)` triple and call their endpoint with
it, or all raise the same invalid-reference `ValueError` before issuing any
request (for every choice of network oracle). -/
theorem c5_identical_validation :
    ∀ url : PyStr,
      decomposeUrl_getPrDiff url = decomposeUrl_approvePr url ∧
      decomposeUrl_approvePr url = decomposeUrl_mergePr url ∧
      (decomposeUrl_getPrDiff url = none →
        ∀ (fO : PyStr → PyStr → PyStr → Except Err PyStr)
          (aO : PyStr → PyStr → PyStr → Except Err Unit)
          (mO : PyStr → PyStr → PyStr → PyStr → Except Err Unit) (meth : PyStr),
          get_pr_diff fO url = .error (.valueError invalidMsg) ∧
          approve_pr aO url = .error (.valueError invalidMsg) ∧
          merge_pr mO url meth = .error (.valueError invalidMsg)) ∧
      (∀ o r n : PyStr, decomposeUrl_getPrDiff url = some (o, r, n) →
        ∀ (fO : PyStr → PyStr → PyStr → Except Err PyStr)
          (aO : PyStr → PyStr → PyStr → Except Err Unit)
          (mO : PyStr → PyStr → PyStr → PyStr → Except Err Unit) (meth : PyStr),
          get_pr_diff fO url = fO o r n ∧
          approve_pr aO url = aO o r n ∧
          merge_pr mO url meth = mO o r n meth) := by
  intro url
  refine ⟨rfl, rfl, ?_, ?_⟩
  · intro h fO aO mO meth
    have ha : decomposeUrl_approvePr url = none := h
    have hm : decomposeUrl_mergePr url = none := h
    exact ⟨by simp [get_pr_diff, h], by simp [approve_pr, ha],
      by simp [merge_pr, hm]⟩
  · intro o r n h fO aO mO meth
    have ha : decomposeUrl_approvePr url = some (o, r, n) := h
    have hm : decomposeUrl_mergePr url = some (o, r, n) := h
    exact ⟨by simp [get_pr_diff, h], by simp [approve_pr, ha],
      by simp [merge_pr, hm]⟩

/-- Witness for C5: on a concrete valid URL all three operations call their
endpoint with the same `("octo", "hello", "42")` triple. -/
theorem c5_witness :
    get_pr_diff fOW6 (toL "https://github.com/octo/hello/pull/42") =
      fOW6 (toL "octo") (toL "hello") (toL "42") ∧
    approve_pr aOW (toL "https://github.com/octo/hello/pull/42") =
      aOW (toL "octo") (toL "hello") (toL "42") ∧
    merge_pr mOW (toL "https://github.com/octo/hello/pull/42") (toL "squash") =
      mOW (toL "octo") (toL "hello") (toL "42") (toL "squash") :=
  (c5_identical_validation (toL "https://github.com/octo/hello/pull/42")).2.2.2
    (toL "octo") (toL "hello") (toL "42") (by decide) fOW6 aOW mOW (toL "squash")

/-! ## Claim C4: exit codes -/

/-- Claim C4: the exit code is 0 exactly when the setup/discovery pipeline
succeeds — token present, search succeeded, and then either no PR matched
the title, or the exemplar diff was fetched and either the user declined
(abort), or the matching pass succeeded (with an empty match set, or a
listable one, in which case the review loop runs and always falls through
to 0, covering stop and per-PR failures).  An auth, transport or
invalid-reference error in setup, search, exemplar fetch or matching makes
the code 1.  Moreover the exit code does not depend on the approve/merge
oracles nor on any interactive answer after the exemplar confirmation, so
a per-PR approve/merge failure (and a stop) never changes it. -/
theorem c4_exit_codes :
    ∀ (tokA tokE : Option PyStr) (sR : Except Err (List PRItem))
      (fO : PyStr → PyStr → PyStr → Except Err PyStr)
      (aO : PyStr → PyStr → PyStr → Except Err Unit)
      (mO : PyStr → PyStr → PyStr → PyStr → Except Err Unit)
      (inp : Nat → PyStr) (tp ex : PyStr),
      (main_exit tokA tokE sR fO aO mO inp tp ex = 0 ↔
        ((resolveToken tokA tokE).isSome = true ∧
         ∃ prs, search_assigned_prs sR tp = .ok prs ∧
           (prs = [] ∨
            ∃ d, get_pr_diff fO ex = .ok d ∧
              (isAffirmative (inp 0) = false ∨
               ∃ ms, find_matching_prs fO prs d = .ok ms ∧
                 (ms = [] ∨ ms.all
                   (fun q => decide (2 ≤ (splitOnChar '/' q.repository_url).length))
                     = true))))) ∧
      (∀ (aO2 : PyStr → PyStr → PyStr → Except Err Unit)
         (mO2 : PyStr → PyStr → PyStr → PyStr → Except Err Unit)
         (inp2 : Nat → PyStr), inp2 0 = inp 0 →
        main_exit tokA tokE sR fO aO2 mO2 inp2 tp ex =
          main_exit tokA tokE sR fO aO mO inp tp ex) := by
  intro tokA tokE sR fO aO mO inp tp ex
  constructor
  · unfold main_exit
    cases htok : resolveToken tokA tokE with
    | none => simp [htok]
    | some t =>
      cases hs : search_assigned_prs sR tp with
      | error e => simp [hs]
      | ok prs =>
        by_cases hp : prs = []
        · simp [hs, hp]
        · cases hd : get_pr_diff fO ex with
          | error e => simp [hs, hp, hd]
          | ok d =>
            by_cases ha : isAffirmative (inp 0) = true
            · cases hm : find_matching_prs fO prs d with
              | error e => simp [hs, hp, hd, ha, hm]
              | ok ms =>
                by_cases hms : ms = []
                · simp [hs, hp, hd, ha, hm, hms]
                · by_cases hall : ms.all
                      (fun q => decide (2 ≤ (splitOnChar '/' q.repository_url).length)) = true
                  · have hall2 : ∀ x ∈ ms, 2 ≤ (splitOnChar '/' x.repository_url).length := by
                      simpa using hall
                    simp [hs, hp, hd, ha, hm, hms, hall]
                    exact hall2
                  · have hall2 : ∃ x ∈ ms, (splitOnChar '/' x.repository_url).length < 2 := by
                      simp only [List.all_eq_true, decide_eq_true_eq, not_forall] at hall
                      obtain ⟨x, hx, hlt⟩ := hall
                      refine ⟨x, ?_, ?_⟩
                      · exact hx
                      · omega
                    simp [hs, hp, hd, ha, hm, hms, hall]
                    exact hall2
            · simp [hs, hp, hd, ha]
  · intro aO2 mO2 inp2 h0
    unfold main_exit
    rw [h0]

/-- A diff-fetch oracle that always succeeds with diff `d`. -/
def fOpass : PyStr → PyStr → PyStr → Except Err PyStr :=
  fun _ _ _ => .ok (toL "d")

/-- An approve oracle that always raises a transport error. -/
def aFail : PyStr → PyStr → PyStr → Except Err Unit :=
  fun _ _ _ => .error .transport

/-- A concrete input stream that always answers `y`. -/
def inY : Nat → PyStr := fun _ => toL "y"

/-- A concrete exemplar PR URL. -/
def exURL : PyStr := toL "https://github.com/octo/hello/pull/42"

/-- Witness for C4: a run whose every approve call raises still exits 0,
and its exit code equals that of the same run with a succeeding approve
oracle. -/
theorem c4_witness :
    main_exit (some (toL "t")) none (.ok [pW1]) fOpass aFail mOW inY
      (toL "abc") exURL = 0 ∧
    main_exit (some (toL "t")) none (.ok [pW1]) fOpass aOW mOW inY
      (toL "abc") exURL = 0 := by
  have h := c4_exit_codes (some (toL "t")) none (.ok [pW1]) fOpass aFail mOW
    inY (toL "abc") exURL
  have hfirst : main_exit (some (toL "t")) none (.ok [pW1]) fOpass aFail mOW
      inY (toL "abc") exURL = 0 :=
    h.1.mpr ⟨by decide, [pW1], by decide,
      Or.inr ⟨toL "d", by decide,
        Or.inr ⟨[pW1], by decide, Or.inr (by decide)⟩⟩⟩
  have h2 := h.2 aOW mOW inY rfl
  exact ⟨hfirst, h2.trans hfirst⟩
